import Mathlib

/-!
Verification of the mutation-reaction engine of a Strapi blog template:
bidirectional article translation (English ↔ Traditional Chinese), PDF cover
extraction for reports, and APA citation enrichment.  The JavaScript sources
are shallowly embedded: pure fragments become Lean functions, the in-memory
operation-guard `Map` becomes an association list keyed by strings, external
services (DeepL, HTTP fetch, mupdf, CrossRef, Zotero) become oracle
parameters, and JS truthiness / `String` operations are modelled explicitly.
-/

/-- JS `a.startsWith(b)`: `b` is a prefix of `a` (by code points). -/
def jsStartsWith (s p : String) : Bool :=
  p.data.isPrefixOf s.data

/-- JS truthiness of a string value: the empty string is falsy. -/
def jsTruthy (s : String) : Bool :=
  decide (s ≠ "")

/-- JS truthiness of a nullable string: `null`/`undefined` and `""` are falsy. -/
def jsTruthyStr : Option String → Bool
  | none => false
  | some s => decide (s ≠ "")

/-- JS `a.includes(b)`: `b` occurs as a contiguous substring of `a`. -/
def strContains (s sub : String) : Bool :=
  decide (sub.data <:+: s.data)

/-! ## Operation guard
`src/src/api/article/content-types/article/lifecycles.js` lines 10-29 (and the
report variant with a 120 s TTL): a module-level `Map` from key to the
timestamp at which the operation started.  An entry older than the TTL is
evicted and treated as absent. -/

/-- The in-memory guard registry: key ↦ start timestamp (ms). -/
abbrev OpMap := List (String × Nat)

/-- Lookup in the guard registry (JS `Map.get`). -/
def lookupKey : OpMap → String → Option Nat
  | [], _ => none
  | (k, t) :: rest, key => if k = key then some t else lookupKey rest key

/-- `isOperationActive` (lifecycles.js lines 12-21): absent keys are inactive,
an entry older than `ttl` milliseconds is expired (and evicted), otherwise the
key is active.  `Date.now()` is the `now` parameter. -/
def isOperationActive (ttl : Nat) (ops : OpMap) (now : Nat) (key : String) : Bool :=
  match lookupKey ops key with
  | none => false
  | some t => decide (now - t ≤ ttl)

/-- `startOperation` (lifecycles.js lines 23-25): JS `Map.set` — replace the
entry in place if present, otherwise append. -/
def setKey : OpMap → String → Nat → OpMap
  | [], key, now => [(key, now)]
  | (k, t) :: rest, key, now =>
      if k = key then (key, now) :: rest else (k, t) :: setKey rest key now

/-- `endOperation` (lifecycles.js lines 27-29): JS `Map.delete`. -/
def removeKey : OpMap → String → OpMap
  | [], _ => []
  | (k, t) :: rest, key => if k = key then rest else (k, t) :: removeKey rest key

/-! ## Locale mapping and the translation trigger guard
`triggerTranslation` in `lifecycles.js` lines 130-197 and the explicit
endpoint `translate-article.js` lines 45-53. -/

/-- Source → target locale choice in `triggerTranslation`
(lifecycles.js lines 155-165).  The JS truthiness guard
`sourceLocale && sourceLocale.startsWith('zh')` is redundant for `""`
(the empty string starts with nothing), so it is dropped. -/
def targetLocaleFor (sourceLocale : String) : Option String :=
  if sourceLocale = "en" then some "zh-Hant-HK"
  else if sourceLocale = "zh-Hant-HK" ∨ sourceLocale = "zh-TW" ∨ sourceLocale = "zh-HK"
      ∨ sourceLocale = "zh" ∨ jsStartsWith sourceLocale "zh" = true then some "en"
  else none

/-- Source → target locale choice in the explicit endpoint
(translate-article.js lines 46-53). -/
def targetLocaleForApi (sourceLocale : String) : Option String :=
  if sourceLocale = "en" then some "zh-Hant-HK"
  else if jsStartsWith sourceLocale "zh" = true then some "en"
  else none

/-- Guard key for one direction of one source record
(lifecycles.js line 170): `translate-<articleId>-to-<targetLocale>`. -/
def translationKey (articleId : Nat) (targetLocale : String) : String :=
  "translate-" ++ toString articleId ++ "-to-" ++ targetLocale

/-- The key the code calls the "reverse" key (lifecycles.js line 179):
`translate-from-<sourceLocale>-doc-<documentId>`.  Note it is built from the
checking run's own source locale. -/
def reverseKey (sourceLocale documentId : String) : String :=
  "translate-from-" ++ sourceLocale ++ "-doc-" ++ documentId

/-- The fields of an article that the trigger logic reads. -/
structure TransArticle where
  id : Nat
  documentId : Option String
  locale : Option String
deriving DecidableEq

/-- Decision taken by the guard portion of `triggerTranslation`. -/
inductive TriggerDecision
  | skipNoIdentity
  | skipUnsupported
  | skipActive
  | skipNoApiKey
  | proceed
deriving DecidableEq

/-- The guard/skip logic of `triggerTranslation` (lifecycles.js lines 144-197):
missing locale or documentId skips; unsupported locale skips; an active
`translationKey` or `reverseKey` skips; then `reverseKey` is marked, the DeepL
credential is checked (a missing key returns with `reverseKey` left marked),
and finally `translationKey` is marked and the run proceeds to translate.
Returns the decision and the guard registry as left by this code path. -/
def triggerGuardCheck (ops : OpMap) (now : Nat) (deeplKeySet : Bool)
    (a : TransArticle) : TriggerDecision × OpMap :=
  if jsTruthyStr a.locale = false ∨ jsTruthyStr a.documentId = false then
    (.skipNoIdentity, ops)
  else
    let src := a.locale.getD ""
    let doc := a.documentId.getD ""
    match targetLocaleFor src with
    | none => (.skipUnsupported, ops)
    | some tgt =>
      let tKey := translationKey a.id tgt
      if isOperationActive 60000 ops now tKey then (.skipActive, ops)
      else
        let rKey := reverseKey src doc
        if isOperationActive 60000 ops now rKey then (.skipActive, ops)
        else
          let ops1 := setKey ops rKey now
          if deeplKeySet = false then (.skipNoApiKey, ops1)
          else (.proceed, setKey ops1 tKey now)

/-- The English source variant (article id 1) of document `d1`. -/
def fwdArticle : TransArticle :=
  { id := 1, documentId := some "d1", locale := some "en" }

/-- The Traditional-Chinese variant (article id 2) of the same document,
whose lifecycle fires when the forward run writes it. -/
def revArticle : TransArticle :=
  { id := 2, documentId := some "d1", locale := some "zh-Hant-HK" }

/-- Guard registry after the forward en→zh-Hant-HK run has started. -/
def fwdOps : OpMap :=
  (triggerGuardCheck [] 1000 true fwdArticle).2

/-- C1: an en→zh-Hant-HK run for document d1 proceeds and marks its guard
keys; a second same-direction trigger is then blocked; but the
reverse-direction run (fired from the zh-Hant-HK variant the forward run
writes) consults keys `translate-2-to-en` and
`translate-from-zh-Hant-HK-doc-d1`, neither of which the forward run set, so
it proceeds to call the translator while the forward guard is active —
contradicting the claim and the code's own comment that the second check
prevents ping-pong. -/
theorem c1_reverse_guard_not_blocked :
    (triggerGuardCheck [] 1000 true fwdArticle).1 = TriggerDecision.proceed
    ∧ fwdOps = [("translate-from-en-doc-d1", 1000), ("translate-1-to-zh-Hant-HK", 1000)]
    ∧ (triggerGuardCheck fwdOps 1000 true fwdArticle).1 = TriggerDecision.skipActive
    ∧ (triggerGuardCheck fwdOps 1000 true revArticle).1 = TriggerDecision.proceed := by
  decide

/-- C6: the source→target locale map is total: `en` goes to the
Traditional-Chinese target `zh-Hant-HK`, any tag with prefix `zh` goes to
`en`, every other tag yields no target (skip); the explicit endpoint computes
the same map. -/
theorem c6_locale_mapping (s : String) :
    (s = "en" → targetLocaleFor s = some "zh-Hant-HK")
    ∧ (jsStartsWith s "zh" = true → targetLocaleFor s = some "en")
    ∧ (s ≠ "en" → jsStartsWith s "zh" = false → targetLocaleFor s = none)
    ∧ targetLocaleForApi s = targetLocaleFor s := by
  refine ⟨?_, ?_, ?_, ?_⟩
  · intro h; subst h; decide
  · intro h
    by_cases h1 : s = "en"
    · subst h1; exact absurd h (by decide)
    · simp [targetLocaleFor, h1, h]
  · intro h1 h2
    have e1 : s ≠ "zh-Hant-HK" := by rintro rfl; exact absurd h2 (by decide)
    have e2 : s ≠ "zh-TW" := by rintro rfl; exact absurd h2 (by decide)
    have e3 : s ≠ "zh-HK" := by rintro rfl; exact absurd h2 (by decide)
    have e4 : s ≠ "zh" := by rintro rfl; exact absurd h2 (by decide)
    simp [targetLocaleFor, h1, h2, e1, e2, e3, e4]
  · by_cases h1 : s = "en"
    · subst h1; decide
    · by_cases h2 : jsStartsWith s "zh" = true
      · simp [targetLocaleFor, targetLocaleForApi, h1, h2]
      · have h2f : jsStartsWith s "zh" = false := by
          cases h : jsStartsWith s "zh" with
          | false => rfl
          | true => exact absurd h h2
        have e1 : s ≠ "zh-Hant-HK" := by rintro rfl; exact absurd h2f (by decide)
        have e2 : s ≠ "zh-TW" := by rintro rfl; exact absurd h2f (by decide)
        have e3 : s ≠ "zh-HK" := by rintro rfl; exact absurd h2f (by decide)
        have e4 : s ≠ "zh" := by rintro rfl; exact absurd h2f (by decide)
        simp [targetLocaleFor, targetLocaleForApi, h1, h2f, e1, e2, e3, e4]

/-- C6 witness: the map at the concrete tags `zh-TW` (prefix `zh`) and `fr`
(unsupported). -/
theorem c6_locale_mapping_witness :
    targetLocaleFor "zh-TW" = some "en" ∧ targetLocaleFor "fr" = none :=
  ⟨(c6_locale_mapping "zh-TW").2.1 (by decide),
   (c6_locale_mapping "fr").2.2.1 (by decide) (by decide)⟩

/-! ## Translation upsert
`triggerTranslation` in `lifecycles.js` lines 248-319 (the explicit endpoint
`translate-article.js` lines 112-160 repeats the same upsert).  The database
is a list of article records; `strapi.db.query(...).findOne/update` become
list search and pointwise map. -/

/-- One stored article record (the fields the upsert touches). -/
structure DbArticle where
  id : Nat
  documentId : String
  locale : String
  title : String
  description : String
  cover_text : String
  slug : String
  publishedAt : Option Nat
deriving DecidableEq

/-- `findOne({ where: { documentId, locale } })`. -/
def findByDocLocale (db : List DbArticle) (doc tgt : String) : Option DbArticle :=
  db.find? (fun a => decide (a.documentId = doc ∧ a.locale = tgt))

/-- `findOne({ where: { id } })`. -/
def findById (db : List DbArticle) (i : Nat) : Option DbArticle :=
  db.find? (fun a => decide (a.id = i))

/-- `update({ where: { id }, data })`: rewrite the record(s) with that id. -/
def updateById (db : List DbArticle) (i : Nat) (f : DbArticle → DbArticle) : List DbArticle :=
  db.map (fun a => if a.id = i then f a else a)

/-- The translated payload built by the translate service. -/
structure TranslatedData where
  title : String
  description : String
  cover_text : String
deriving DecidableEq

/-- The upsert step of `triggerTranslation` (lifecycles.js lines 250-318): if
a target-locale record exists for the document it is updated in place with the
translated fields and `slug := String(existingTarget.id)`; otherwise
`strapi.documents(...).update({ locale: targetLocale, data: {...,
publishedAt: null } })` creates the localization as a draft (`freshId` is the
id storage assigns, `initSlug` whatever slug default it starts with — the
create payload passes no slug), and a second write sets
`slug := String(newArticle.id)`. -/
def upsertTranslation (db : List DbArticle) (doc tgt : String) (td : TranslatedData)
    (freshId : Nat) (initSlug : String) : List DbArticle :=
  match findByDocLocale db doc tgt with
  | some existing =>
      updateById db existing.id (fun a =>
        { a with title := td.title, description := td.description,
                 cover_text := td.cover_text, slug := toString existing.id })
  | none =>
      let created : DbArticle :=
        { id := freshId, documentId := doc, locale := tgt,
          title := td.title, description := td.description,
          cover_text := td.cover_text, slug := initSlug, publishedAt := none }
      updateById (db ++ [created]) freshId (fun a => { a with slug := toString freshId })

lemma findById_of_mem (db : List DbArticle) (hn : (db.map DbArticle.id).Nodup)
    (a : DbArticle) (ha : a ∈ db) : findById db a.id = some a := by
  induction db with
  | nil => cases ha
  | cons b rest ih =>
    rcases List.mem_cons.mp ha with rfl | hmem
    · simp [findById]
    · have hb : ¬ (b.id = a.id) := by
        intro h
        exact (List.nodup_cons.mp hn).1 (h ▸ List.mem_map_of_mem DbArticle.id hmem)
      have hrest := ih (List.nodup_cons.mp hn).2 hmem
      simpa [findById, List.find?_cons_of_neg, hb] using hrest

lemma findById_updateById (db : List DbArticle) (i : Nat) (f : DbArticle → DbArticle)
    (hf : ∀ x, (f x).id = x.id) (a : DbArticle) (h : findById db i = some a) :
    findById (updateById db i f) i = some (f a) := by
  induction db with
  | nil => simp [findById] at h
  | cons b rest ih =>
    by_cases hbi : b.id = i
    · have hb : a = b := by
        have := h
        simp [findById, List.find?_cons_of_pos, hbi] at this
        exact this.symm
      subst hb
      simp [findById, updateById, hbi, List.find?_cons_of_pos, hf]
    · have h' : findById rest i = some a := by
        simpa [findById, List.find?_cons_of_neg, hbi] using h
      have := ih h'
      simpa [findById, updateById, hbi, List.find?_cons_of_neg] using this

lemma findById_append_fresh (db : List DbArticle) (c : DbArticle) (i : Nat)
    (h : ∀ a ∈ db, a.id ≠ i) (hc : c.id = i) : findById (db ++ [c]) i = some c := by
  induction db with
  | nil => simp [findById, hc]
  | cons b rest ih =>
    have hb : ¬ (b.id = i) := h b (List.mem_cons_self b rest)
    have := ih (fun a ha => h a (List.mem_cons_of_mem b ha))
    simpa [findById, List.find?_cons_of_neg, hb] using this

/-- C2: in the upsert step, an existing `(documentId, targetLocale)` variant is
updated in place with the translated fields and its slug forced to its own id
(never the source's); when none exists a variant is created with
`publishedAt = none` (draft) and its slug set to its own newly assigned id by
the second write. -/
theorem c2_upsert_translation (db : List DbArticle) (doc tgt : String)
    (td : TranslatedData) (freshId : Nat) (initSlug : String) :
    (∀ ex, findByDocLocale db doc tgt = some ex → (db.map DbArticle.id).Nodup →
      findById (upsertTranslation db doc tgt td freshId initSlug) ex.id
        = some { ex with title := td.title, description := td.description,
                         cover_text := td.cover_text, slug := toString ex.id })
    ∧ (findByDocLocale db doc tgt = none → (∀ a ∈ db, a.id ≠ freshId) →
      findById (upsertTranslation db doc tgt td freshId initSlug) freshId
        = some { id := freshId, documentId := doc, locale := tgt,
                 title := td.title, description := td.description,
                 cover_text := td.cover_text, slug := toString freshId,
                 publishedAt := none }) := by
  constructor
  · intro ex hfind hn
    have hmem : ex ∈ db := List.mem_of_find?_eq_some hfind
    have hbase : findById db ex.id = some ex := findById_of_mem db hn ex hmem
    have := findById_updateById db ex.id
      (fun a => { a with title := td.title, description := td.description,
                         cover_text := td.cover_text, slug := toString ex.id })
      (fun _ => rfl) ex hbase
    simpa [upsertTranslation, hfind] using this
  · intro hfind hfresh
    have hmap : updateById (db ++
        [{ id := freshId, documentId := doc, locale := tgt, title := td.title,
           description := td.description, cover_text := td.cover_text,
           slug := initSlug, publishedAt := none }]) freshId
          (fun a => { a with slug := toString freshId })
        = db ++ [{ id := freshId, documentId := doc, locale := tgt,
                   title := td.title, description := td.description,
                   cover_text := td.cover_text, slug := toString freshId,
                   publishedAt := none }] := by
      unfold updateById
      rw [List.map_append]
      congr 1
      · calc db.map (fun a => if a.id = freshId then { a with slug := toString freshId } else a)
            = db.map (fun a => a) := by
              apply List.map_congr_left
              intro a ha
              simp [hfresh a ha]
          _ = db := List.map_id' db
      · simp
    have := findById_append_fresh db
      { id := freshId, documentId := doc, locale := tgt, title := td.title,
        description := td.description, cover_text := td.cover_text,
        slug := toString freshId, publishedAt := none } freshId hfresh rfl
    simpa [upsertTranslation, hfind, hmap] using this

/-- The English source variant already stored. -/
def srcArtC2 : DbArticle :=
  { id := 1, documentId := "d", locale := "en", title := "Hello",
    description := "greeting", cover_text := "cv", slug := "1", publishedAt := some 5 }

/-- The pre-existing Traditional-Chinese variant of the same document. -/
def tgtArtC2 : DbArticle :=
  { id := 2, documentId := "d", locale := "zh-Hant-HK", title := "old",
    description := "old", cover_text := "old", slug := "stale", publishedAt := some 7 }

/-- The translated payload used in the C2 witness. -/
def tdC2 : TranslatedData :=
  { title := "T", description := "D", cover_text := "C" }

/-- C2 witness: on a concrete two-record store, the update branch rewrites the
existing zh variant with slug "2" (its own id), and on a store without a
target the create branch produces a draft whose slug is its fresh id. -/
theorem c2_upsert_translation_witness :
    findById (upsertTranslation [srcArtC2, tgtArtC2] "d" "zh-Hant-HK" tdC2 3 "") 2
      = some { id := 2, documentId := "d", locale := "zh-Hant-HK", title := "T",
               description := "D", cover_text := "C", slug := "2", publishedAt := some 7 }
    ∧ findById (upsertTranslation [srcArtC2] "d" "zh-Hant-HK" tdC2 3 "") 3
      = some { id := 3, documentId := "d", locale := "zh-Hant-HK", title := "T",
               description := "D", cover_text := "C", slug := "3", publishedAt := none } := by
  constructor
  · exact (c2_upsert_translation [srcArtC2, tgtArtC2] "d" "zh-Hant-HK" tdC2 3 "").1
      tgtArtC2 (by decide) (by decide)
  · exact (c2_upsert_translation [srcArtC2] "d" "zh-Hant-HK" tdC2 3 "").2
      (by decide) (by decide)

/-! ## Cover-extraction triggers
Report lifecycle (`report/lifecycles.js` lines 186-245) versus the manual
endpoint (`report/controllers/extract-cover.js` lines 12-68). -/

/-- The fields of a report the triggers read (media ids are positive, so JS
truthiness of `report_file?.id` / `cover?.id` is presence). -/
structure ReportRec where
  id : Nat
  report_file : Option Nat
  cover : Option Nat
deriving DecidableEq

/-- The lifecycle trigger condition (`report/lifecycles.js` lines 207 and
239): extract only when a report file exists and no cover is set. -/
def lifecycleSchedulesExtraction (r : ReportRec) : Bool :=
  r.report_file.isSome && r.cover.isNone

/-- The automatic reaction (`afterCreate`/`afterUpdate`): when the condition
holds, `extractAndSetCover` runs (setting the cover on success, leaving the
record untouched on failure); otherwise nothing is scheduled.  The boolean
records whether an extraction run started. -/
def lifecycleAfterUpdate (r : ReportRec) (extraction : Option Nat) : ReportRec × Bool :=
  if lifecycleSchedulesExtraction r then
    match extraction with
    | some coverId => ({ r with cover := some coverId }, true)
    | none => (r, true)
  else (r, false)

/-- Result of the manual endpoint `extractCover`. -/
inductive ManualResult
  | notFoundErr
  | badRequestNoFile
  | serverErrorExtract
  | success (updated : ReportRec)
deriving DecidableEq

/-- The manual endpoint (`extract-cover.js` lines 12-68): missing report ⇒
not-found, missing file ⇒ bad request; otherwise extraction always proceeds —
an existing cover is logged and replaced — and on success the report's cover
is overwritten with the new asset id. -/
def manualExtractCover (report : Option ReportRec) (extraction : Option Nat) : ManualResult :=
  match report with
  | none => .notFoundErr
  | some r =>
    match r.report_file with
    | none => .badRequestNoFile
    | some _ =>
      match extraction with
      | none => .serverErrorExtract
      | some coverId => .success { r with cover := some coverId }

/-- C3: cover extraction is asymmetric by trigger: the lifecycle reaction on a
record that already has a cover schedules nothing (no-op), while the manual
endpoint proceeds on any record with a report file and overwrites the existing
cover. -/
theorem c3_cover_trigger_asymmetry (r : ReportRec) (c : Nat) (ext : Option Nat) :
    (r.cover = some c → lifecycleAfterUpdate r ext = (r, false))
    ∧ (∀ f newId, r.report_file = some f →
        manualExtractCover (some r) (some newId)
          = ManualResult.success { r with cover := some newId }) := by
  constructor
  · intro h
    simp [lifecycleAfterUpdate, lifecycleSchedulesExtraction, h]
  · intro f newId hf
    simp [manualExtractCover, hf]

/-- C3 witness: a report with file 10 and cover 20: the lifecycle run is a
no-op; the manual run replaces the cover with 99. -/
theorem c3_cover_trigger_asymmetry_witness :
    lifecycleAfterUpdate { id := 1, report_file := some 10, cover := some 20 } (some 99)
      = ({ id := 1, report_file := some 10, cover := some 20 }, false)
    ∧ manualExtractCover (some { id := 1, report_file := some 10, cover := some 20 }) (some 99)
      = ManualResult.success { id := 1, report_file := some 10, cover := some 99 } :=
  ⟨(c3_cover_trigger_asymmetry _ 20 (some 99)).1 rfl,
   (c3_cover_trigger_asymmetry ⟨1, some 10, some 20⟩ 20 (some 99)).2 10 99 rfl⟩

/-! ## Cover-extraction run after the transient PNG write
`extractAndSetCover` in `report/lifecycles.js` lines 110-179: the outcomes of
the external calls made after `fs.writeFile(outputPath, pngBuffer)` (line
120) decide whether the transient file is ever removed.  `fs.remove` sits at
line 171, after the record update and before the catch; the empty-upload
branch (line 154) returns without removing; the catch (line 174) only logs;
the finally (line 178) releases the guard. -/

/-- Outcome of the external calls that follow the transient-file write. -/
inductive PostWriteOutcome
  | statThrows
  | uploadThrows
  | uploadEmpty
  | updateThrows
  | success
deriving DecidableEq

/-- Observable end state of one `extractAndSetCover` run. -/
structure CoverRunState where
  tempRemoved : Bool
  coverSet : Bool
  guardReleased : Bool
deriving DecidableEq

/-- The part of `extractAndSetCover` from the `fs.writeFile` on (lines
124-172), inside the try: `fs.stat`, the media upload (which can throw or
return no files — the latter logs and returns early), the record update, and
only then `fs.remove(outputPath)`.  `Except` is a thrown error (caught at line
174); the payload is `(tempRemoved, coverSet)`. -/
def coverBodyAfterWrite (o : PostWriteOutcome) : Except Unit (Bool × Bool) :=
  if o = .statThrows then .error ()
  else if o = .uploadThrows then .error ()
  else if o = .uploadEmpty then .ok (false, false)
  else if o = .updateThrows then .error ()
  else .ok (true, true)

/-- The whole run from the write on: catch only logs, finally releases the
guard (`endOperation`, line 178). -/
def extractAndSetCoverAfterWrite (o : PostWriteOutcome) : CoverRunState :=
  match coverBodyAfterWrite o with
  | .ok (r, c) => { tempRemoved := r, coverSet := c, guardReleased := true }
  | .error () => { tempRemoved := false, coverSet := false, guardReleased := true }

/-- C4 counterexample: when the upload returns no files the run has written
the transient PNG, takes the early-return failure path, releases the guard —
and leaves the file in place, so the file is not removed on every failure
path as claimed (the throwing paths behave the same way). -/
theorem c4_counterexample :
    (extractAndSetCoverAfterWrite PostWriteOutcome.uploadEmpty).tempRemoved = false
    ∧ (extractAndSetCoverAfterWrite PostWriteOutcome.uploadThrows).tempRemoved = false
    ∧ (extractAndSetCoverAfterWrite PostWriteOutcome.uploadEmpty).guardReleased = true := by
  decide

/-- C4 amended: on every run reaching the transient-file write, the guard key
is released on success and on every failure path (finally-equivalent), but
the transient file is removed only on the full success path — any failure
after the write leaves it behind. -/
theorem c4_guard_released_file_on_success_only (o : PostWriteOutcome) :
    (extractAndSetCoverAfterWrite o).guardReleased = true
    ∧ (extractAndSetCoverAfterWrite o).tempRemoved = decide (o = PostWriteOutcome.success)
    ∧ (extractAndSetCoverAfterWrite o).coverSet = decide (o = PostWriteOutcome.success) := by
  cases o <;> decide

/-! ## Remote byte acquisition
`downloadFileToBuffer` in `report/controllers/extract-cover.js` lines 74-95
(identical in the lifecycle variant `src/unnamed/part_001` lines 37-58): a
3xx response with a Location header recurses on the new URL with no depth
bound, a non-200 final response rejects, a 200 resolves the body.  The
unbounded recursion is embedded with fuel: the source terminates on an input
iff some fuel yields a non-`noFuel` outcome. -/

/-- One HTTP response as the code inspects it. -/
structure NetResponse where
  statusCode : Nat
  location : Option String
  body : String
deriving DecidableEq

/-- Outcome of a download attempt; `noFuel` marks the embedded recursion
running out of fuel (the source would still be recursing). -/
inductive DownloadOutcome
  | ok (body : String)
  | httpError (code : Nat)
  | netError
  | noFuel
deriving DecidableEq

/-- `downloadFileToBuffer` (extract-cover.js lines 74-95) over a network
oracle `net` (a `none` response is a request error). -/
def downloadFileToBuffer (net : String → Option NetResponse) :
    Nat → String → DownloadOutcome
  | 0, _ => .noFuel
  | fuel + 1, url =>
    match net url with
    | none => .netError
    | some r =>
      if 300 ≤ r.statusCode ∧ r.statusCode < 400 ∧ r.location.isSome then
        downloadFileToBuffer net fuel (r.location.getD "")
      else if r.statusCode ≠ 200 then .httpError r.statusCode
      else .ok r.body

/-- A network with a one-URL redirect loop. -/
def loopNet : String → Option NetResponse := fun u =>
  if u = "https://cdn.example/report.pdf" then
    some { statusCode := 302, location := some "https://cdn.example/report.pdf", body := "" }
  else none

lemma loopNet_diverges (fuel : Nat) :
    downloadFileToBuffer loopNet fuel "https://cdn.example/report.pdf"
      = DownloadOutcome.noFuel := by
  induction fuel with
  | zero => rfl
  | succ n ih =>
    have hcond : 300 ≤ (302 : Nat) ∧ (302 : Nat) < 400
        ∧ (some "https://cdn.example/report.pdf").isSome := by decide
    simpa [downloadFileToBuffer, loopNet] using ih

/-- C5 counterexample: on a redirect loop, no amount of fuel ever produces a
result — the recursion has no redirect-chain cap and does not terminate,
refuting the claimed cap. -/
theorem c5_counterexample :
    ¬ ∃ fuel, downloadFileToBuffer loopNet fuel "https://cdn.example/report.pdf"
        ≠ DownloadOutcome.noFuel := by
  rintro ⟨fuel, h⟩
  exact h (loopNet_diverges fuel)

/-- C5 amended: the byte-acquisition step follows redirects transparently
(a 3xx response with a Location recurses on that location) and fails when the
final response is not a 200, but it does not cap redirect chains: on a
redirect loop the recursion never terminates. -/
theorem c5_redirects_uncapped (net : String → Option NetResponse)
    (fuel : Nat) (url : String) (r : NetResponse) :
    (net url = some r → 300 ≤ r.statusCode → r.statusCode < 400 →
      r.location.isSome = true →
      downloadFileToBuffer net (fuel + 1) url
        = downloadFileToBuffer net fuel (r.location.getD ""))
    ∧ (net url = some r →
      ¬ (300 ≤ r.statusCode ∧ r.statusCode < 400 ∧ r.location.isSome) →
      r.statusCode ≠ 200 →
      downloadFileToBuffer net (fuel + 1) url = DownloadOutcome.httpError r.statusCode)
    ∧ (net url = some r →
      ¬ (300 ≤ r.statusCode ∧ r.statusCode < 400 ∧ r.location.isSome) →
      r.statusCode = 200 →
      downloadFileToBuffer net (fuel + 1) url = DownloadOutcome.ok r.body)
    ∧ downloadFileToBuffer loopNet fuel "https://cdn.example/report.pdf"
        = DownloadOutcome.noFuel := by
  refine ⟨?_, ?_, ?_, loopNet_diverges fuel⟩
  · intro hnet h1 h2 h3
    simp [downloadFileToBuffer, hnet, h1, h2, h3]
  · intro hnet hno h200
    simp [downloadFileToBuffer, hnet, hno, h200]
  · intro hnet hno h200
    simp [downloadFileToBuffer, hnet, hno, h200]

/-- A two-hop network: one redirect, then a 200 with the PDF bytes. -/
def hopNet : String → Option NetResponse := fun u =>
  if u = "https://cdn.example/a.pdf" then
    some { statusCode := 301, location := some "https://cdn.example/b.pdf", body := "" }
  else if u = "https://cdn.example/b.pdf" then
    some { statusCode := 200, location := none, body := "PDFBYTES" }
  else none

/-- C5 witness: on the two-hop network the theorem's redirect clause steps
from the first URL to the second, and the success clause returns the body. -/
theorem c5_redirects_uncapped_witness :
    downloadFileToBuffer hopNet 2 "https://cdn.example/a.pdf"
      = downloadFileToBuffer hopNet 1 "https://cdn.example/b.pdf"
    ∧ downloadFileToBuffer hopNet 1 "https://cdn.example/b.pdf"
      = DownloadOutcome.ok "PDFBYTES" := by
  constructor
  · exact (c5_redirects_uncapped hopNet 1 "https://cdn.example/a.pdf"
      { statusCode := 301, location := some "https://cdn.example/b.pdf", body := "" }).1
      (by decide) (by decide) (by decide) (by decide)
  · exact (c5_redirects_uncapped hopNet 0 "https://cdn.example/b.pdf"
      { statusCode := 200, location := none, body := "PDFBYTES" }).2.2.1
      (by decide) (by decide) rfl

/-! ## The translate service
`src/unnamed/part_009` (api::translate.translate): `translateText` (lines
17-96), `translateBlocks` (lines 105-135), plus the locale-code lookup tables
the DeepL call uses.  The DeepL client itself is an oracle. -/

/-- The whitespace class JS `String.prototype.trim` strips (the common
members). -/
def isJsWhitespace (c : Char) : Bool :=
  [' ', '\t', '\n', '\r', '\u000B', '\u000C', ' ', '﻿'].contains c

/-- JS `text.trim()`: strip leading and trailing whitespace. -/
def jsTrim (s : String) : String :=
  String.mk (((s.data.dropWhile isJsWhitespace).reverse.dropWhile isJsWhitespace).reverse)

/-- JS `s.toLowerCase()` (per code point). -/
def jsToLower (s : String) : String :=
  String.mk (s.data.map Char.toLower)

/-- `localeMap` (part_009 lines 34-44): Strapi locale → DeepL target code. -/
def localeMapTarget (tag : String) : Option String :=
  if tag = "en" then some "EN-US"
  else if tag = "EN" then some "EN-US"
  else if tag = "en-US" then some "EN-US"
  else if tag = "en-GB" then some "EN-GB"
  else if tag = "zh-TW" then some "ZH-HANT"
  else if tag = "zh-Hant-HK" then some "ZH-HANT"
  else if tag = "zh-HK" then some "ZH-HANT"
  else if tag = "zh" then some "ZH-HANT"
  else if tag = "zh-Hans" then some "ZH-HANS"
  else none

/-- `sourceLocaleMap` (part_009 lines 47-57): Strapi locale → DeepL source
code. -/
def sourceLocaleMap (tag : String) : Option String :=
  if tag = "en" ∨ tag = "EN" ∨ tag = "en-US" ∨ tag = "en-GB" then some "EN"
  else if tag = "zh-TW" ∨ tag = "zh-Hant-HK" ∨ tag = "zh-HK" ∨ tag = "zh" ∨ tag = "zh-Hans"
    then some "ZH"
  else none

/-- Source-language code with prefix fallback (part_009 line 59). -/
def sourceLangCodeFor (sourceLang : String) : String :=
  match sourceLocaleMap sourceLang with
  | some c => c
  | none => if jsStartsWith (jsToLower sourceLang) "zh" then "ZH" else "EN"

/-- Target-language code: table lookup with prefix fallback, then the two
forcing rules (part_009 lines 60-71). -/
def targetLangCodeFor (targetLang : String) : String :=
  let c0 :=
    match localeMapTarget targetLang with
    | some c => c
    | none => if jsStartsWith (jsToLower targetLang) "zh" then "ZH-HANT" else "EN-US"
  let c1 :=
    if targetLang = "zh-Hant-HK" ∨ targetLang = "zh-TW" ∨ targetLang = "zh-HK"
        ∨ (jsStartsWith (jsToLower targetLang) "zh" = true
            ∧ strContains (jsToLower targetLang) "hans" = false)
      then "ZH-HANT" else c0
  if targetLang = "en" ∨ targetLang = "EN" ∨ targetLang = "en-US" then "EN-US" else c1

/-- `translateText` (part_009 lines 17-96): a missing API key throws; empty
or whitespace-only text is returned unchanged with no external call;
otherwise the DeepL oracle is called with the mapped language codes.  The
result pairs the text with whether the external translator was invoked. -/
def translateText (apiKey : Option String)
    (deepl : String → String → String → Except String String)
    (text sourceLang targetLang : String) : Except String (String × Bool) :=
  match apiKey with
  | none => .error "DEEPL_API_KEY environment variable is not set"
  | some _ =>
    if jsTruthy text = false ∨ jsTrim text = "" then .ok (text, false)
    else
      match deepl text (sourceLangCodeFor sourceLang) (targetLangCodeFor targetLang) with
      | .ok t => .ok (t, true)
      | .error e => .error ("Translation failed: " ++ e)

lemma dropWhile_of_all {α : Type} (p : α → Bool) (l : List α) (h : l.all p = true) :
    l.dropWhile p = [] := by
  induction l with
  | nil => rfl
  | cons a rest ih =>
    simp only [List.all_cons, Bool.and_eq_true] at h
    simp [List.dropWhile, h.1, ih h.2]

lemma jsTrim_of_all_whitespace (text : String)
    (h : text.data.all isJsWhitespace = true) : jsTrim text = "" := by
  unfold jsTrim
  rw [dropWhile_of_all isJsWhitespace text.data h]
  rfl

/-- C7: a whitespace-only (in particular empty) input text is returned
unchanged by `translateText` and the external translator is not called. -/
theorem c7_whitespace_short_circuit (k : String)
    (deepl : String → String → String → Except String String)
    (text sourceLang targetLang : String)
    (h : text.data.all isJsWhitespace = true) :
    translateText (some k) deepl text sourceLang targetLang = Except.ok (text, false) := by
  have htrim := jsTrim_of_all_whitespace text h
  simp [translateText, htrim]

/-- C7 witness: the empty string and a two-space string short-circuit with no
call, whatever the translator oracle would return. -/
theorem c7_whitespace_short_circuit_witness :
    translateText (some "key") (fun _ _ _ => Except.ok "CALLED") "" "en" "zh-Hant-HK"
      = Except.ok ("", false)
    ∧ translateText (some "key") (fun _ _ _ => Except.ok "CALLED") "  " "zh-TW" "en"
      = Except.ok ("  ", false) :=
  ⟨c7_whitespace_short_circuit "key" (fun _ _ _ => Except.ok "CALLED") "" "en" "zh-Hant-HK"
      (by decide),
   c7_whitespace_short_circuit "key" (fun _ _ _ => Except.ok "CALLED") "  " "zh-TW" "en"
      (by decide)⟩

/-- One dynamic-zone block: `__component` tag, the per-variant `id`, the
translatable text sub-fields (`title` only meaningful on quote, `body` on
rich-text and quote), and the untouched remaining payload (media/slider
data). -/
structure Block where
  comp : String
  id : Option Nat
  title : Option String
  body : Option String
  rest : List (String × String)
deriving DecidableEq

/-- `translateBlocks` body for one block (part_009 lines 112-132): spread the
block, delete its `id`; a rich-text block with truthy `body` gets the body
translated; a quote block gets truthy `title` and `body` translated;
everything else (media, slider, unknown) passes through minus the `id`. -/
def translateBlock (tr : String → String) (b : Block) : Block :=
  if b.comp = "shared.rich-text" ∧ jsTruthyStr b.body = true then
    { b with id := none, body := b.body.map tr }
  else if b.comp = "shared.quote" then
    { b with
      id := none
      title := if jsTruthyStr b.title then b.title.map tr else b.title
      body := if jsTruthyStr b.body then b.body.map tr else b.body }
  else
    { b with id := none }

/-- `translateBlocks` (part_009 lines 105-135): each block mapped in order. -/
def translateBlocks (tr : String → String) (blocks : List Block) : List Block :=
  blocks.map (translateBlock tr)

/-- C8: block translation maps each block by tag — rich-text and quote get
their truthy text sub-fields translated individually, media and slider pass
through unchanged apart from the `id` — and every emitted block has its
per-variant `id` stripped; the sequence is mapped elementwise in order. -/
theorem c8_block_translation (tr : String → String) (b : Block) (bs : List Block) :
    ((translateBlock tr b).id = none)
    ∧ (b.comp = "shared.media" ∨ b.comp = "shared.slider" →
        translateBlock tr b = { b with id := none })
    ∧ (b.comp = "shared.rich-text" → jsTruthyStr b.body = true →
        translateBlock tr b = { b with id := none, body := b.body.map tr })
    ∧ (b.comp = "shared.quote" →
        translateBlock tr b = { b with
          id := none
          title := if jsTruthyStr b.title then b.title.map tr else b.title
          body := if jsTruthyStr b.body then b.body.map tr else b.body })
    ∧ translateBlocks tr bs = bs.map (translateBlock tr)
    ∧ (translateBlocks tr bs).length = bs.length := by
  refine ⟨?_, ?_, ?_, ?_, rfl, by simp [translateBlocks]⟩
  · unfold translateBlock
    split_ifs <;> rfl
  · rintro (h | h) <;> simp [translateBlock, h]
  · intro h hb
    simp [translateBlock, h, hb]
  · intro h
    simp [translateBlock, h]

/-- C8 witness: a media block keeps its payload but loses its id; a rich-text
block with a body has the body translated and the id stripped. -/
theorem c8_block_translation_witness :
    translateBlock (fun s => s ++ "!")
        { comp := "shared.media", id := some 7, title := none, body := none,
          rest := [("file", "f.png")] }
      = { comp := "shared.media", id := none, title := none, body := none,
          rest := [("file", "f.png")] }
    ∧ translateBlock (fun s => s ++ "!")
        { comp := "shared.rich-text", id := some 3, title := none, body := some "hi",
          rest := [] }
      = { comp := "shared.rich-text", id := none, title := none, body := some "hi!",
          rest := [] } :=
  ⟨(c8_block_translation (fun s => s ++ "!")
      { comp := "shared.media", id := some 7, title := none, body := none,
        rest := [("file", "f.png")] } []).2.1 (Or.inl rfl),
   (c8_block_translation (fun s => s ++ "!")
      { comp := "shared.rich-text", id := some 3, title := none, body := some "hi",
        rest := [] } []).2.2.1 rfl (by decide)⟩

/-! ## Description truncation on the explicit translation endpoint
`translate-article.js` lines 104-108. -/

/-- The truncation applied before persisting (`translatedData.description &&
translatedData.description.length > 80` guards
`substring(0, 77) + '...'`). -/
def truncateDescription (d : String) : String :=
  if jsTruthy d = true ∧ d.length > 80 then String.mk (d.data.take 77) ++ "..." else d

lemma strLength_data (s : String) : s.length = s.data.length := rfl

lemma strLength_append (a b : String) : (a ++ b).length = a.length + b.length := by
  cases a with
  | mk xs =>
    cases b with
    | mk ys =>
      show (String.mk (xs ++ ys)).length = xs.length + ys.length
      simp [strLength_data]

/-- C10: on the explicit translation endpoint, a translated description
longer than 80 characters is persisted as its first 77 characters followed by
"...", and the persisted description never exceeds 80 characters. -/
theorem c10_description_truncation (d : String) :
    (d.length > 80 →
      truncateDescription d = String.mk (d.data.take 77) ++ "..."
      ∧ (truncateDescription d).length = 80)
    ∧ (truncateDescription d).length ≤ 80 := by
  have hlen : (String.mk (d.data.take 77) ++ "...").length
      = min 77 d.data.length + 3 := by
    rw [strLength_append, strLength_data, strLength_data]
    simp
  constructor
  · intro h
    have hne : d ≠ "" := by
      intro he
      rw [he] at h
      exact absurd h (by decide)
    have hcond : jsTruthy d = true ∧ d.length > 80 :=
      ⟨decide_eq_true hne, h⟩
    have heq : truncateDescription d = String.mk (d.data.take 77) ++ "..." := by
      simp [truncateDescription, hcond]
    refine ⟨heq, ?_⟩
    rw [heq, hlen]
    have : 77 ≤ d.data.length := by
      have := h
      rw [strLength_data] at this
      omega
    omega
  · by_cases hcond : jsTruthy d = true ∧ d.length > 80
    · have heq : truncateDescription d = String.mk (d.data.take 77) ++ "..." := by
        simp [truncateDescription, hcond]
      rw [heq, hlen]
      omega
    · have heq : truncateDescription d = d := by
        simp [truncateDescription] at hcond ⊢
        intro h1 h2
        exact absurd (hcond h1) (by omega)
      rw [heq]
      rcases Classical.em (d.length ≤ 80) with hle | hgt
      · exact hle
      · exfalso
        have hne : d ≠ "" := by
          intro he
          rw [he] at hgt
          exact hgt (by decide)
        exact hcond ⟨decide_eq_true hne, by omega⟩

/-- C10 witness: an 85-character description is truncated to its first 77
characters plus "...". -/
theorem c10_description_truncation_witness :
    truncateDescription (String.mk (List.replicate 85 'x'))
      = String.mk ((List.replicate 85 'x').take 77) ++ "..." :=
  ((c10_description_truncation (String.mk (List.replicate 85 'x'))).1 (by decide)).1

/-! ## Citation enrichment
`generateAPA` / `getAPACitation` in `src/unnamed/part_007` (lines 267-300 and
410-443).  The resolution components are oracles: `extractDOI` is the pure
URL-shape pattern table (lines 12-61), `pageDOI` the page fetch + metadata
scan (lines 66-111), `crossRef` the CrossRef lookup composed with the APA
formatter (a `none` is a failed lookup), `zotero` the Zotero translation
server returning a formatted citation or nothing. -/

/-- The resolution collaborators of the citation orchestrator. -/
structure CiteEnv where
  extractDOI : String → Option String
  pageDOI : String → Option String
  crossRef : String → Option String
  zotero : String → Option String

/-- One resolution method, for tracing which steps a run attempts. -/
inductive CiteMethod
  | urlShape
  | pageScan
  | doiLookup
  | generic
deriving DecidableEq

/-- `getAPACitation` (part_007 lines 267-300) with an attempt log: step 1
extract a DOI from the URL shape; step 2 only if that failed, fetch the page
and scan for a DOI; step 3 if a DOI was found, query CrossRef and format;
step 4 fall back to the Zotero server; `none` when everything failed. -/
def getAPACitationLog (env : CiteEnv) (url : String) :
    Option String × List CiteMethod :=
  match env.extractDOI url with
  | some doi =>
    match env.crossRef doi with
    | some apa => (some apa, [.urlShape, .doiLookup])
    | none =>
      match env.zotero url with
      | some apa => (some apa, [.urlShape, .doiLookup, .generic])
      | none => (none, [.urlShape, .doiLookup, .generic])
  | none =>
    match env.pageDOI url with
    | some doi =>
      match env.crossRef doi with
      | some apa => (some apa, [.urlShape, .pageScan, .doiLookup])
      | none =>
        match env.zotero url with
        | some apa => (some apa, [.urlShape, .pageScan, .doiLookup, .generic])
        | none => (none, [.urlShape, .pageScan, .doiLookup, .generic])
    | none =>
      match env.zotero url with
      | some apa => (some apa, [.urlShape, .pageScan, .generic])
      | none => (none, [.urlShape, .pageScan, .generic])

/-- One `(url, citation)` entry of a reference-list block. -/
structure UrlItem where
  link : Option String
  apa : Option String
deriving DecidableEq

/-- The processing condition (part_007 lines 420-421): a truthy link and
either no citation yet or one that is only a "Retrieved from" placeholder. -/
def needsProcessing (item : UrlItem) : Bool :=
  jsTruthyStr item.link
    && (!(jsTruthyStr item.apa) || strContains (item.apa.getD "") "Retrieved from")

/-- The placeholder written when every resolution method fails (part_007 line
435). -/
def placeholderFor (link : String) : String :=
  "<p>Retrieved from <a href=\"" ++ link ++ "\" target=\"_blank\">" ++ link ++ "</a></p>"

/-- The per-entry body of `generateAPA` (part_007 lines 416-438): entries
needing processing get the resolved citation, or the placeholder when
`getAPACitation` yields nothing; other entries are untouched. -/
def processUrlItem (env : CiteEnv) (item : UrlItem) : UrlItem :=
  if needsProcessing item then
    let l := item.link.getD ""
    match (getAPACitationLog env l).1 with
    | some apa => { item with apa := some apa }
    | none => { item with apa := some (placeholderFor l) }
  else item

/-- All entries of a reference block, in order (the `for` loop over `urls`). -/
def processUrls (env : CiteEnv) (urls : List UrlItem) : List UrlItem :=
  urls.map (processUrlItem env)

/-- C9: citation resolution methods are tried in the fixed order URL-shape →
page-scan → DOI lookup → generic service: every attempt log starts with the
URL-shape step and is one of the five in-order prefix-respecting outcomes;
the page is fetched exactly when the URL shape yields no DOI; and an entry
for which resolution yields nothing is written the "Retrieved from" generic
placeholder rather than left blank. -/
theorem c9_citation_resolution_order (env : CiteEnv) (url : String) (item : UrlItem) :
    ((getAPACitationLog env url).2.head? = some CiteMethod.urlShape)
    ∧ ((getAPACitationLog env url).2 ∈
        [[CiteMethod.urlShape, CiteMethod.doiLookup],
         [CiteMethod.urlShape, CiteMethod.doiLookup, CiteMethod.generic],
         [CiteMethod.urlShape, CiteMethod.pageScan, CiteMethod.doiLookup],
         [CiteMethod.urlShape, CiteMethod.pageScan, CiteMethod.doiLookup, CiteMethod.generic],
         [CiteMethod.urlShape, CiteMethod.pageScan, CiteMethod.generic]])
    ∧ ((CiteMethod.pageScan ∈ (getAPACitationLog env url).2) ↔ env.extractDOI url = none)
    ∧ (CiteMethod.generic ∈ (getAPACitationLog env url).2 →
        (getAPACitationLog env url).1 = env.zotero url)
    ∧ (∀ l, item.link = some l → needsProcessing item = true →
        (getAPACitationLog env l).1 = none →
        processUrlItem env item = { item with apa := some (placeholderFor l) }) := by
  have hmain :
      ((getAPACitationLog env url).2.head? = some CiteMethod.urlShape)
      ∧ ((getAPACitationLog env url).2 ∈
          [[CiteMethod.urlShape, CiteMethod.doiLookup],
           [CiteMethod.urlShape, CiteMethod.doiLookup, CiteMethod.generic],
           [CiteMethod.urlShape, CiteMethod.pageScan, CiteMethod.doiLookup],
           [CiteMethod.urlShape, CiteMethod.pageScan, CiteMethod.doiLookup, CiteMethod.generic],
           [CiteMethod.urlShape, CiteMethod.pageScan, CiteMethod.generic]])
      ∧ ((CiteMethod.pageScan ∈ (getAPACitationLog env url).2) ↔ env.extractDOI url = none)
      ∧ (CiteMethod.generic ∈ (getAPACitationLog env url).2 →
          (getAPACitationLog env url).1 = env.zotero url) := by
    cases hx : env.extractDOI url with
    | some doi =>
      cases hc : env.crossRef doi with
      | some apa => simp [getAPACitationLog, hx, hc]
      | none =>
        cases hz : env.zotero url with
        | some apa => simp [getAPACitationLog, hx, hc, hz]
        | none => simp [getAPACitationLog, hx, hc, hz]
    | none =>
      cases hp : env.pageDOI url with
      | some doi =>
        cases hc : env.crossRef doi with
        | some apa => simp [getAPACitationLog, hx, hp, hc]
        | none =>
          cases hz : env.zotero url with
          | some apa => simp [getAPACitationLog, hx, hp, hc, hz]
          | none => simp [getAPACitationLog, hx, hp, hc, hz]
      | none =>
        cases hz : env.zotero url with
        | some apa => simp [getAPACitationLog, hx, hp, hz]
        | none => simp [getAPACitationLog, hx, hp, hz]
  refine ⟨hmain.1, hmain.2.1, hmain.2.2.1, hmain.2.2.2, ?_⟩
  intro l hl hneed hnone
  simp [processUrlItem, hneed, hl, hnone]

/-- An environment in which every resolution method fails. -/
def deadEnv : CiteEnv :=
  { extractDOI := fun _ => none, pageDOI := fun _ => none,
    crossRef := fun _ => none, zotero := fun _ => none }

/-- C9 witness: with every resolver failing, the run attempts URL-shape, then
page-scan, then the generic service, and the processed entry carries the
"Retrieved from" placeholder for its URL. -/
theorem c9_citation_resolution_order_witness :
    (getAPACitationLog deadEnv "https://example.org/p").2
      = [CiteMethod.urlShape, CiteMethod.pageScan, CiteMethod.generic]
    ∧ processUrlItem deadEnv { link := some "https://example.org/p", apa := none }
      = { link := some "https://example.org/p",
          apa := some (placeholderFor "https://example.org/p") } := by
  constructor
  · rfl
  · exact (c9_citation_resolution_order deadEnv "https://example.org/p"
      { link := some "https://example.org/p", apa := none }).2.2.2.2
      "https://example.org/p" rfl (by decide) rfl
